import Mathlib

/-!
Shallow embedding of the speaker-tracking core (src/utils/audioUtils.ts,
src/utils/speakerDetection.ts, and the frame-processing/aggregation logic of
src/hooks/useAudioProcessor.ts), together with theorems settling the frozen
claims about the natural-language specification.

Modelling conventions:
* JavaScript numbers are modelled as exact rationals (ℚ) wherever the source
  only adds, multiplies, divides and compares (VAD, spectral centroid, pitch
  estimation, similarity/EMA updates, the aggregator).  The mel-band code uses
  transcendental functions (log10 / 10^x), so that part is modelled over ℝ.
* A JavaScript `Map` is modelled as an insertion-ordered association list:
  `set` on an existing key overwrites in place (keeping its position), `set`
  on a fresh key appends, and iteration follows the list order, exactly as
  ECMAScript specifies for `Map`.
* `null` is `Option.none`;  timestamps (`Date.now()`) are integers supplied by
  the environment.
* The NaN produced by `calculateRMS` on an empty buffer (0/0 in JS) is
  modelled explicitly with `Option ℝ` (`none` = NaN) in the definitions that
  the error-handling claim needs.
-/

namespace SpeakerApp

/-- Feature vector produced per frame by `extractAudioFeatures`
(src/utils/audioUtils.ts).  Only the numeric fields consumed by the VAD and
the clusterer are modelled; the `frequencyData`/`waveformData` copies are
retained by the source purely for visualization and never read by the core. -/
structure AudioFeatures where
  volume : ℚ
  pitch : ℚ
  spectralCentroid : ℚ
  zeroCrossingRate : ℚ
  mfcc : List ℚ
deriving DecidableEq

/-- Voice profile of one speaker (src/types: `VoiceProfile`). -/
structure VoiceProfile where
  speakerId : ℤ
  avgPitch : ℚ
  avgSpectralCentroid : ℚ
  pitchVariance : ℚ
  samples : ℕ
deriving DecidableEq

/-- Clusterer state (src/utils/speakerDetection.ts: `SpeakerDetector`).
`profiles` models the JS `Map<number, VoiceProfile>` as an insertion-ordered
association list. -/
structure SpeakerDetector where
  profiles : List (ℤ × VoiceProfile)
  currentSpeakerId : Option ℤ
  lastFeatures : Option AudioFeatures
  speakerCount : ℕ
  maxSpeakers : ℕ
deriving DecidableEq

/-- `Map.has` for the association-list model of a JS `Map`. -/
def mapHas (ps : List (ℤ × VoiceProfile)) (k : ℤ) : Bool :=
  ps.any (fun p => p.1 == k)

/-- `Map.get` for the association-list model of a JS `Map`. -/
def mapGet (ps : List (ℤ × VoiceProfile)) (k : ℤ) : Option VoiceProfile :=
  (ps.find? (fun p => p.1 == k)).map Prod.snd

/-- `Map.set` for the association-list model of a JS `Map`: overwrite in
place when the key is present (keeping its position), append otherwise. -/
def mapSet (ps : List (ℤ × VoiceProfile)) (k : ℤ) (v : VoiceProfile) :
    List (ℤ × VoiceProfile) :=
  if mapHas ps k then ps.map (fun p => if p.1 = k then (k, v) else p)
  else ps ++ [(k, v)]

/-! ### audioUtils.ts -/

/-- `detectVoiceActivity` (src/utils/audioUtils.ts lines 170-192), translated
branch for branch. -/
def detectVoiceActivity (features : AudioFeatures) (silenceThreshold : ℚ) : Bool :=
  let hasSignificantVolume : Bool := decide (features.volume > silenceThreshold)
  if features.volume > 0.02 then
    true
  else
    let hasPitch : Bool := decide (features.pitch > 50) && decide (features.pitch < 600)
    let hasFrequencyContent : Bool := decide (features.spectralCentroid > 100)
    hasSignificantVolume && (hasPitch || hasFrequencyContent)

/-- `calculateSpectralCentroid` (src/utils/audioUtils.ts lines 32-49).  The
accumulator pair is (weightedSum, sum); `frequency = i * binFrequency`. -/
def calculateSpectralCentroid (frequencyData : List ℚ) (sampleRate fftSize : ℚ) : ℚ :=
  let binFrequency := sampleRate / fftSize
  let acc := frequencyData.enum.foldl
    (fun (acc : ℚ × ℚ) p => (acc.1 + p.2 * ((p.1 : ℚ) * binFrequency), acc.2 + p.2))
    (0, 0)
  if acc.2 > 0 then acc.1 / acc.2 else 0

/-- Autocorrelation of the buffer at one candidate lag: the inner loop of
`estimatePitch` (src/utils/audioUtils.ts lines 63-66),
`Σ_{i < length - period} x_i · x_{i+period}`. -/
def autocorrAt (dataArray : List ℚ) (period : ℕ) : ℚ :=
  (List.range (dataArray.length - period)).foldl
    (fun acc i => acc + dataArray.getD i 0 * dataArray.getD (i + period) 0) 0

/-- Body of the candidate-lag loop of `estimatePitch`
(src/utils/audioUtils.ts lines 62-72): the running (bestCorrelation,
bestPeriod) pair is replaced only on a strictly larger correlation. -/
def pitchStep (dataArray : List ℚ) (best : ℚ × ℕ) (period : ℕ) : ℚ × ℕ :=
  let correlation := autocorrAt dataArray period
  if correlation > best.1 then (correlation, period) else best

/-- `estimatePitch` (src/utils/audioUtils.ts lines 54-75).  The loop runs over
`period ∈ [minPeriod, min maxPeriod length)` starting from
(bestCorrelation, bestPeriod) = (0, 0). -/
def estimatePitch (dataArray : List ℚ) (sampleRate : ℚ) : ℚ :=
  let minPeriod := ⌊sampleRate / 500⌋.toNat
  let maxPeriod := ⌊sampleRate / 50⌋.toNat
  let bound := min maxPeriod dataArray.length
  let periods := (List.range (bound - minPeriod)).map (· + minPeriod)
  let best := periods.foldl (pitchStep dataArray) (0, 0)
  if best.2 > 0 then sampleRate / (best.2 : ℚ) else 0

/-- `calculateRMS` (src/utils/audioUtils.ts lines 6-12) over ℝ, with the NaN
produced for a zero-length buffer (`sum / 0 = 0/0 = NaN` in JS, and
`Math.sqrt(NaN) = NaN`) modelled as `none`.  For a nonempty buffer of finite
samples the JS result is the finite real `sqrt(sum/length)`. -/
noncomputable def calculateRMS (dataArray : List ℝ) : Option ℝ :=
  let sum := dataArray.foldl (fun s x => s + x * x) 0
  if dataArray.length = 0 then none
  else some (Real.sqrt (sum / (dataArray.length : ℝ)))

/-- JavaScript `>` on a possibly-NaN left operand: any comparison with NaN is
false. -/
noncomputable def jsGt (x : Option ℝ) (threshold : ℝ) : Bool :=
  match x with
  | none => false
  | some v => decide (v > threshold)

/-- `detectVoiceActivity` under JavaScript float semantics for the volume
field (which is NaN = `none` when the frame buffer was empty): same branch
structure as the source, with each volume comparison read through `jsGt`. -/
noncomputable def detectVoiceActivityFloat (volume : Option ℝ)
    (pitch spectralCentroid silenceThreshold : ℝ) : Bool :=
  let hasSignificantVolume : Bool := jsGt volume silenceThreshold
  if jsGt volume 0.02 then
    true
  else
    let hasPitch : Bool := decide (pitch > 50) && decide (pitch < 600)
    let hasFrequencyContent : Bool := decide (spectralCentroid > 100)
    hasSignificantVolume && (hasPitch || hasFrequencyContent)

/-! ### speakerDetection.ts -/

def PROFILE_SAMPLES_THRESHOLD : ℕ := 10

def SPEAKER_CHANGE_THRESHOLD : ℚ := 0.4

/-- `createSpeakerDetector` (src/utils/speakerDetection.ts lines 19-27). -/
def createSpeakerDetector (maxSpeakers : ℕ) : SpeakerDetector :=
  { profiles := []
    currentSpeakerId := none
    lastFeatures := none
    speakerCount := 0
    maxSpeakers := maxSpeakers }

/-- `calculateSimilarity` (src/utils/speakerDetection.ts lines 33-51). -/
def calculateSimilarity (features : AudioFeatures) (profile : VoiceProfile) : ℚ :=
  if profile.samples < PROFILE_SAMPLES_THRESHOLD then 0.5
  else
    let pitchDiff := |features.pitch - profile.avgPitch|
    let pitchSimilarity := max 0 (1 - pitchDiff / 150)
    let spectralDiff := |features.spectralCentroid - profile.avgSpectralCentroid|
    let spectralSimilarity := max 0 (1 - spectralDiff / 1000)
    pitchSimilarity * 0.6 + spectralSimilarity * 0.4

/-- `updateProfile` (src/utils/speakerDetection.ts lines 56-76). -/
def updateProfile (profile : VoiceProfile) (features : AudioFeatures) : VoiceProfile :=
  let alpha := min 0.1 (1 / ((profile.samples : ℚ) + 1))
  let newAvgPitch := profile.avgPitch * (1 - alpha) + features.pitch * alpha
  let newAvgSpectral :=
    profile.avgSpectralCentroid * (1 - alpha) + features.spectralCentroid * alpha
  let pitchVariance :=
    profile.pitchVariance * (1 - alpha) + (features.pitch - newAvgPitch) ^ 2 * alpha
  { profile with
    avgPitch := newAvgPitch
    avgSpectralCentroid := newAvgSpectral
    pitchVariance := pitchVariance
    samples := profile.samples + 1 }

/-- `createProfile` (src/utils/speakerDetection.ts lines 81-89). -/
def createProfile (speakerId : ℤ) (features : AudioFeatures) : VoiceProfile :=
  { speakerId := speakerId
    avgPitch := features.pitch
    avgSpectralCentroid := features.spectralCentroid
    pitchVariance := 0
    samples := 1 }

/-- Result record of `detectSpeaker`. -/
structure DetectResult where
  speakerId : ℤ
  isNew : Bool
  confidence : ℚ
deriving DecidableEq

/-- The profile-comparison loop of `detectSpeaker`
(src/utils/speakerDetection.ts lines 108-119): fold over the `Map` entries in
insertion order, starting from (bestSpeakerId, bestSimilarity) = (-1, 0),
updating only on a strictly larger similarity. -/
def profileStep (features : AudioFeatures) (best : ℤ × ℚ) (p : ℤ × VoiceProfile) :
    ℤ × ℚ :=
  let similarity := calculateSimilarity features p.2
  if similarity > best.2 then (p.1, similarity) else best

def scanProfiles (features : AudioFeatures) (profiles : List (ℤ × VoiceProfile)) : ℤ × ℚ :=
  profiles.foldl (profileStep features) (-1, 0)

/-- `detectSpeaker` (src/utils/speakerDetection.ts lines 95-138). -/
def detectSpeaker (detector : SpeakerDetector) (features : AudioFeatures) : DetectResult :=
  if features.pitch < 60 ∨ features.pitch > 400 then
    { speakerId := detector.currentSpeakerId.getD (-1), isNew := false, confidence := 0 }
  else
    let best := scanProfiles features detector.profiles
    if best.2 < SPEAKER_CHANGE_THRESHOLD ∧ detector.speakerCount < detector.maxSpeakers then
      { speakerId := (detector.speakerCount : ℤ), isNew := true, confidence := best.2 }
    else if best.2 < SPEAKER_CHANGE_THRESHOLD then
      { speakerId := if best.1 = -1 then 0 else best.1, isNew := false, confidence := best.2 }
    else
      { speakerId := best.1, isNew := false, confidence := best.2 }

/-- Result record of `processSpeakerDetection`. -/
structure ProcessResult where
  detector : SpeakerDetector
  speakerId : ℤ
  isNewSpeaker : Bool
  confidence : ℚ
deriving DecidableEq

/-- `processSpeakerDetection` (src/utils/speakerDetection.ts lines 143-179). -/
def processSpeakerDetection (detector : SpeakerDetector) (features : AudioFeatures) :
    ProcessResult :=
  let r := detectSpeaker detector features
  let newProfiles :=
    if 0 ≤ r.speakerId then
      if r.isNew then
        mapSet detector.profiles r.speakerId (createProfile r.speakerId features)
      else
        match mapGet detector.profiles r.speakerId with
        | some existingProfile =>
            mapSet detector.profiles r.speakerId (updateProfile existingProfile features)
        | none => detector.profiles
    else detector.profiles
  { detector :=
      { profiles := newProfiles
        currentSpeakerId :=
          if 0 ≤ r.speakerId then some r.speakerId else detector.currentSpeakerId
        lastFeatures := some features
        speakerCount := if r.isNew then detector.speakerCount + 1 else detector.speakerCount
        maxSpeakers := detector.maxSpeakers }
    speakerId := r.speakerId
    isNewSpeaker := r.isNew
    confidence := r.confidence }

/-- `resetDetector` (src/utils/speakerDetection.ts lines 184-186). -/
def resetDetector (maxSpeakers : ℕ) : SpeakerDetector :=
  createSpeakerDetector maxSpeakers

/-! ### useAudioProcessor.ts : SessionAggregator -/

/-- Roster record (src/types: `Speaker`). -/
structure Speaker where
  id : ℤ
  name : String
  color : String
  totalTime : ℤ
  isActive : Bool
  lastActiveTime : Option ℤ
deriving DecidableEq

def SPEAKER_COLORS : List String := ["#3b82f6", "#10b981", "#f59e0b", "#ef4444", "#8b5cf6"]

def DEFAULT_SILENCE_THRESHOLD : ℚ := 0.008

def DEFAULT_MIN_SPEECH_DURATION : ℤ := 50

/-- `addSpeaker` (src/hooks/useAudioProcessor.ts lines 57-74): guard the id
range, skip ids already present, otherwise append a fresh record and sort the
roster by id (JS `Array.sort` with comparator `a.id - b.id`; a stable sort). -/
def addSpeaker (maxSpeakers : ℕ) (speakers : List Speaker) (speakerId : ℤ) : List Speaker :=
  if speakerId < 0 ∨ (maxSpeakers : ℤ) ≤ speakerId then speakers
  else if speakers.any (fun s => s.id == speakerId) then speakers
  else
    let newSpeaker : Speaker :=
      { id := speakerId
        name := "Speaker " ++ toString (speakerId + 1)
        color := SPEAKER_COLORS.getD speakerId.toNat ""
        totalTime := 0
        isActive := false
        lastActiveTime := none }
    List.insertionSort (fun a b => a.id ≤ b.id) (speakers ++ [newSpeaker])

/-- Aggregator state: the roster ref plus the `lastSpeakerIdRef` /
`lastSpeakingTimeRef` pair of src/hooks/useAudioProcessor.ts. -/
structure AggState where
  speakers : List Speaker
  lastSpeakerId : Option ℤ
  lastSpeakingTime : ℤ
deriving DecidableEq

/-- Full per-session mutable state threaded through `processAudioFrame`:
the clusterer state plus the aggregator state. -/
structure SysState where
  detector : SpeakerDetector
  agg : AggState
deriving DecidableEq

/-- The roster update of the voiced, in-range branch of `processAudioFrame`
(src/hooks/useAudioProcessor.ts lines 104-137): dynamic roster growth on a
new speaker, close-out of the previous speaker's interval on a hand-off,
interval start bookkeeping, and the active-flag sweep. -/
def rosterVoiced (maxSpeakers : ℕ) (agg : AggState) (isNewSpeaker : Bool)
    (detectedSpeakerId : ℤ) (now : ℤ) : AggState :=
  let sp0 : List Speaker :=
    if isNewSpeaker ∧ ¬ (agg.speakers.any fun s => s.id == detectedSpeakerId) then
      addSpeaker maxSpeakers agg.speakers detectedSpeakerId
    else agg.speakers
  let sp1 : List Speaker :=
    match agg.lastSpeakerId with
    | some lastId =>
      if lastId ≠ detectedSpeakerId then
        sp0.map fun s =>
          if s.id = lastId then
            { s with
              totalTime := s.totalTime + (now - agg.lastSpeakingTime)
              isActive := false }
          else s
      else sp0
    | none => sp0
  let lastSpeakingTime :=
    if agg.lastSpeakerId ≠ some detectedSpeakerId then now
    else agg.lastSpeakingTime
  let sp2 : List Speaker :=
    sp1.map fun s =>
      if s.id = detectedSpeakerId then { s with isActive := true, lastActiveTime := some now }
      else { s with isActive := false }
  { speakers := sp2, lastSpeakerId := some detectedSpeakerId,
    lastSpeakingTime := lastSpeakingTime }

/-- The roster update of the silent branch of `processAudioFrame`
(src/hooks/useAudioProcessor.ts lines 139-156): close out the tracked
speaker's interval only when it exceeded `minSpeechDuration`, then clear the
tracked speaker. -/
def rosterSilent (agg : AggState) (now : ℤ) : AggState :=
  match agg.lastSpeakerId with
  | some lastId =>
    let elapsed := now - agg.lastSpeakingTime
    let sp : List Speaker :=
      if elapsed > DEFAULT_MIN_SPEECH_DURATION then
        agg.speakers.map fun s =>
          if s.id = lastId then
            { s with totalTime := s.totalTime + elapsed, isActive := false }
          else { s with isActive := false }
      else agg.speakers
    { speakers := sp, lastSpeakerId := none, lastSpeakingTime := now }
  | none => agg

/-- `processAudioFrame` (src/hooks/useAudioProcessor.ts lines 95-156), the
state-relevant part: VAD gate, speaker detection, then the roster update of
the matching branch.  `now` is the `Date.now()` timestamp of the frame.
(The silent branch leaves the roster, tracked speaker and timestamp
untouched when no speaker was being tracked, as the source does.) -/
def processAudioFrame (maxSpeakers : ℕ) (st : SysState) (features : AudioFeatures)
    (now : ℤ) : SysState :=
  let voiceActive := detectVoiceActivity features DEFAULT_SILENCE_THRESHOLD
  if voiceActive then
    let result := processSpeakerDetection st.detector features
    if 0 ≤ result.speakerId ∧ result.speakerId < (maxSpeakers : ℤ) then
      { detector := result.detector
        agg := rosterVoiced maxSpeakers st.agg result.isNewSpeaker result.speakerId now }
    else
      { detector := result.detector, agg := st.agg }
  else
    { detector := st.detector, agg := rosterSilent st.agg now }

/-- Detector states reachable from `createSpeakerDetector k` by repeated
`processSpeakerDetection` (src/utils/speakerDetection.ts usage pattern). -/
inductive DetectorReachable (k : ℕ) : SpeakerDetector → Prop where
  | init : DetectorReachable k (createSpeakerDetector k)
  | step (d : SpeakerDetector) (f : AudioFeatures) :
      DetectorReachable k d → DetectorReachable k (processSpeakerDetection d f).detector

/-- Full-session states reachable from the session start of
src/hooks/useAudioProcessor.ts (`start` clears the roster, resets the detector
and sets `lastSpeakerIdRef := null`) by repeated `processAudioFrame`. -/
inductive SysReachable (k : ℕ) : SysState → Prop where
  | init (t0 : ℤ) :
      SysReachable k
        { detector := createSpeakerDetector k
          agg := { speakers := [], lastSpeakerId := none, lastSpeakingTime := t0 } }
  | step (st : SysState) (f : AudioFeatures) (now : ℤ) :
      SysReachable k st → SysReachable k (processAudioFrame k st f now)

/-! ### audioUtils.ts : mel-band energies (over ℝ, since the source uses
log10 and 10^x) -/

/-- `freqToMel` (src/utils/audioUtils.ts line 91): `2595 · log10(1 + f/700)`. -/
noncomputable def freqToMel (f : ℝ) : ℝ := 2595 * Real.logb 10 (1 + f / 700)

/-- `melToFreq` (src/utils/audioUtils.ts line 92): `700 · (10^(m/2595) − 1)`. -/
noncomputable def melToFreq (m : ℝ) : ℝ := 700 * ((10 : ℝ) ^ (m / 2595) - 1)

/-- JavaScript array read at a signed index.  The source only ever reads
`frequencyData[bin]` with `binStart ≤ bin ≤ binEnd ≤ length − 1`; a negative
`binStart` (JS would read `undefined` and poison the sum with NaN) can only
arise for `sampleRate ≤ 40`, which every theorem below excludes. -/
def jsIndex (data : List ℝ) (i : ℤ) : ℝ :=
  if 0 ≤ i then data.getD i.toNat 0 else 0

/-- Raw triangular-filter band energies of `calculateMelBandEnergies`
(src/utils/audioUtils.ts lines 86-123), before the final normalization. -/
noncomputable def melBandRawEnergies (frequencyData : List ℝ) (sampleRate : ℝ)
    (numBands : ℕ) : List ℝ :=
  let maxFreq := sampleRate / 2
  let binWidth := maxFreq / (frequencyData.length : ℝ)
  let minMel := freqToMel 20
  let maxMel := freqToMel maxFreq
  let melStep := (maxMel - minMel) / ((numBands : ℝ) + 1)
  (List.range numBands).map fun band : ℕ =>
    let melStart := minMel + (band : ℝ) * melStep
    let melCenter := minMel + ((band : ℝ) + 1) * melStep
    let melEnd := minMel + ((band : ℝ) + 2) * melStep
    let freqStart := melToFreq melStart
    let freqCenter := melToFreq melCenter
    let freqEnd := melToFreq melEnd
    let binStart : ℤ := ⌊freqStart / binWidth⌋
    let binCenter : ℤ := ⌊freqCenter / binWidth⌋
    let binEnd : ℤ := min ⌊freqEnd / binWidth⌋ ((frequencyData.length : ℤ) - 1)
    ((List.range (binEnd + 1 - binStart).toNat).map (fun j : ℕ => binStart + (j : ℤ))).foldl
      (fun energy bin =>
        let weight : ℝ :=
          if bin < binCenter then
            ((bin : ℝ) - (binStart : ℝ)) / ((binCenter : ℝ) - (binStart : ℝ) + 1)
          else
            ((binEnd : ℝ) - (bin : ℝ)) / ((binEnd : ℝ) - (binCenter : ℝ) + 1)
        energy + jsIndex frequencyData bin * weight)
      0

/-- `calculateMelBandEnergies` (src/utils/audioUtils.ts lines 81-128): the
raw band energies, each divided by `Math.max(...bands, 1)`. -/
noncomputable def calculateMelBandEnergies (frequencyData : List ℝ) (sampleRate : ℝ)
    (numBands : ℕ) : List ℝ :=
  let bands := melBandRawEnergies frequencyData sampleRate numBands
  let maxEnergy := bands.foldr max 1
  bands.map (fun e => e / maxEnergy)

/-! ### Shared concrete fixtures for witnesses and counterexamples -/

/-- A voiced feature frame: volume 0.05, pitch 120 Hz, centroid 800 Hz. -/
def voicedFrame : AudioFeatures :=
  { volume := 0.05, pitch := 120, spectralCentroid := 800, zeroCrossingRate := 0.1, mfcc := [] }

/-- A pitchless feature frame: volume 0.05, pitch 0. -/
def pitchlessFrame : AudioFeatures :=
  { volume := 0.05, pitch := 0, spectralCentroid := 0, zeroCrossingRate := 0.1, mfcc := [] }

/-- A silent feature frame: volume 0.001, below every threshold. -/
def silentFrame : AudioFeatures :=
  { volume := 0.001, pitch := 0, spectralCentroid := 0, zeroCrossingRate := 0, mfcc := [] }

/-- A feature frame with pitch exactly 60 Hz (the boundary of the claimed
open interval (60,400)). -/
def boundaryFrame : AudioFeatures :=
  { volume := 0.05, pitch := 60, spectralCentroid := 800, zeroCrossingRate := 0.1, mfcc := [] }

/-- A one-speaker detector state: one profile (id 0, avgPitch 120,
avgCentroid 800, 1 sample), current speaker 0, cap 2. -/
def oneSpeakerDetector : SpeakerDetector :=
  { profiles :=
      [(0, { speakerId := 0, avgPitch := 120, avgSpectralCentroid := 800,
             pitchVariance := 0, samples := 1 })]
    currentSpeakerId := some 0
    lastFeatures := none
    speakerCount := 1
    maxSpeakers := 2 }

/-- Structural invariant of the clusterer state, for a speaker cap `k`:
the cap is stored, the profile keys are exactly `0 .. speakerCount-1` in
creation order, the count never exceeds the cap, and any current speaker id
is one of the created profiles. -/
def DetInv (k : ℕ) (d : SpeakerDetector) : Prop :=
  d.maxSpeakers = k ∧
  d.profiles.map Prod.fst = (List.range d.speakerCount).map (fun n : ℕ => (n : ℤ)) ∧
  d.speakerCount ≤ k ∧
  (∀ i, d.currentSpeakerId = some i → 0 ≤ i ∧ i < (d.speakerCount : ℤ))

/-- The session state right after `start`: detector freshly reset, empty
roster, no tracked speaker. -/
def startState : SysState :=
  { detector := createSpeakerDetector 2
    agg := { speakers := [], lastSpeakerId := none, lastSpeakingTime := 0 } }

/-- A session state in which speaker 0 is on the roster, marked active, and
being tracked since timestamp 100. -/
def activeState : SysState :=
  { detector := oneSpeakerDetector
    agg :=
      { speakers :=
          [{ id := 0, name := "Speaker 1", color := "#3b82f6", totalTime := 0,
             isActive := true, lastActiveTime := some 100 }]
        lastSpeakerId := some 0
        lastSpeakingTime := 100 } }

/-- Joint invariant of the clusterer and the aggregator roster for a session
with cap `k`: the clusterer invariant holds and the roster holds exactly one
`Speaker` record per created profile, in ascending id order
`0 .. speakerCount-1`. -/
def SysInv (k : ℕ) (st : SysState) : Prop :=
  DetInv k st.detector ∧
  st.agg.speakers.map Speaker.id =
    (List.range st.detector.speakerCount).map (fun n : ℕ => (n : ℤ))

/-! ## Theorems -/

/-! ### Helper lemmas -/

theorem centroid_foldl_enumFrom (c : ℚ) (l : List ℚ) :
    ∀ (n : ℕ) (a : ℚ × ℚ),
      (List.enumFrom n l).foldl
        (fun (acc : ℚ × ℚ) p => (acc.1 + p.2 * ((p.1 : ℚ) * c), acc.2 + p.2)) a
      = (a.1 + ∑ i ∈ Finset.range l.length, l.getD i 0 * (((n : ℚ) + (i : ℚ)) * c),
         a.2 + l.sum) := by
  induction l with
  | nil => intro n a; simp
  | cons x xs ih =>
    intro n a
    simp only [List.enumFrom, List.foldl_cons, List.length_cons, List.sum_cons]
    rw [ih]
    refine Prod.ext ?_ ?_
    · show a.1 + x * ((n : ℚ) * c) + _ = a.1 + _
      rw [Finset.sum_range_succ']
      simp only [List.getD_cons_succ, List.getD_cons_zero]
      push_cast
      ring_nf
      congr 1
      exact Finset.sum_congr rfl (fun i _ => by ring)
    · show a.2 + x + xs.sum = a.2 + (x + xs.sum)
      ring

theorem mapHas_of_mapGet (ps : List (ℤ × VoiceProfile)) (k : ℤ) (p : VoiceProfile)
    (h : mapGet ps k = some p) : mapHas ps k = true := by
  simp only [mapGet, Option.map_eq_some'] at h
  obtain ⟨y, hy, -⟩ := h
  have hmem := List.mem_of_find?_eq_some hy
  have hpred := List.find?_some hy
  simp only [mapHas, List.any_eq_true]
  exact ⟨y, hmem, hpred⟩

theorem mapSet_keys_of_has (ps : List (ℤ × VoiceProfile)) (k : ℤ) (v : VoiceProfile)
    (h : mapHas ps k = true) :
    (mapSet ps k v).map Prod.fst = ps.map Prod.fst := by
  simp only [mapSet, h, if_true, List.map_map]
  refine List.map_congr_left ?_
  intro p _
  by_cases hp : p.1 = k
  · simp [Function.comp, hp]
  · simp [Function.comp, hp]

theorem mapSet_keys_of_not_has (ps : List (ℤ × VoiceProfile)) (k : ℤ) (v : VoiceProfile)
    (h : ¬ mapHas ps k = true) :
    (mapSet ps k v).map Prod.fst = ps.map Prod.fst ++ [k] := by
  simp [mapSet, h]

theorem pitch_foldl_inv (xs : List ℚ) (ps : List ℕ) :
    ∀ b : ℚ × ℕ,
      List.foldl (pitchStep xs) b ps = b ∨
      ((List.foldl (pitchStep xs) b ps).2 ∈ ps ∧
        (List.foldl (pitchStep xs) b ps).1 =
          autocorrAt xs (List.foldl (pitchStep xs) b ps).2 ∧
        b.1 < (List.foldl (pitchStep xs) b ps).1) := by
  induction ps with
  | nil => intro b; left; rfl
  | cons p ps ih =>
    intro b
    simp only [List.foldl_cons]
    by_cases hc : autocorrAt xs p > b.1
    · have hstep : pitchStep xs b p = (autocorrAt xs p, p) := by
        simp [pitchStep, hc]
      rw [hstep]
      rcases ih (autocorrAt xs p, p) with h | ⟨h1, h2, h3⟩
      · right
        rw [h]
        exact ⟨List.mem_cons_self p ps, rfl, hc⟩
      · right
        exact ⟨List.mem_cons_of_mem p h1, h2, lt_trans hc h3⟩
    · have hstep : pitchStep xs b p = b := by
        simp [pitchStep, hc]
      rw [hstep]
      rcases ih b with h | ⟨h1, h2, h3⟩
      · left; exact h
      · right
        exact ⟨List.mem_cons_of_mem p h1, h2, h3⟩

theorem pitchScan_inv (xs : List ℚ) (ps : List ℕ) :
    List.foldl (pitchStep xs) (0, 0) ps = ((0 : ℚ), (0 : ℕ)) ∨
      ((List.foldl (pitchStep xs) (0, 0) ps).2 ∈ ps ∧
        (List.foldl (pitchStep xs) (0, 0) ps).1 =
          autocorrAt xs (List.foldl (pitchStep xs) (0, 0) ps).2 ∧
        0 < (List.foldl (pitchStep xs) (0, 0) ps).1) :=
  pitch_foldl_inv xs ps (0, 0)

/-- The reject branch of `detectSpeaker`: pitch below 60 or above 400. -/
theorem detectSpeaker_reject (d : SpeakerDetector) (f : AudioFeatures)
    (h : f.pitch < 60 ∨ f.pitch > 400) :
    detectSpeaker d f =
      { speakerId := d.currentSpeakerId.getD (-1), isNew := false, confidence := 0 } := by
  simp only [detectSpeaker]
  rw [if_pos h]

theorem mapHas_iff_mem_keys (ps : List (ℤ × VoiceProfile)) (k : ℤ) :
    mapHas ps k = true ↔ k ∈ ps.map Prod.fst := by
  simp [mapHas, List.any_eq_true, List.mem_map]

theorem profile_foldl_inv (f : AudioFeatures) (ps : List (ℤ × VoiceProfile)) :
    ∀ b : ℤ × ℚ,
      List.foldl (profileStep f) b ps = b ∨
      ((List.foldl (profileStep f) b ps).1 ∈ ps.map Prod.fst ∧
        b.2 < (List.foldl (profileStep f) b ps).2) := by
  induction ps with
  | nil => intro b; left; rfl
  | cons p ps ih =>
    intro b
    simp only [List.foldl_cons, List.map_cons]
    by_cases hc : calculateSimilarity f p.2 > b.2
    · have hstep : profileStep f b p = (p.1, calculateSimilarity f p.2) := by
        simp [profileStep, hc]
      rw [hstep]
      rcases ih (p.1, calculateSimilarity f p.2) with h | ⟨h1, h2⟩
      · right
        rw [h]
        exact ⟨List.mem_cons_self _ _, hc⟩
      · right
        exact ⟨List.mem_cons_of_mem _ h1, lt_trans hc h2⟩
    · have hstep : profileStep f b p = b := by
        simp [profileStep, hc]
      rw [hstep]
      rcases ih b with h | ⟨h1, h2⟩
      · left
        exact h
      · right
        exact ⟨List.mem_cons_of_mem _ h1, h2⟩

theorem scanProfiles_mem (f : AudioFeatures) (ps : List (ℤ × VoiceProfile))
    (h : (scanProfiles f ps).1 ≠ -1 ∨ 0 < (scanProfiles f ps).2) :
    (scanProfiles f ps).1 ∈ ps.map Prod.fst := by
  have he : scanProfiles f ps = List.foldl (profileStep f) (-1, 0) ps := rfl
  rcases profile_foldl_inv f ps (-1, 0) with h0 | ⟨h1, -⟩
  · rw [he, h0] at h
    rcases h with h | h
    · exact absurd rfl h
    · exact absurd h (by norm_num)
  · rw [he]
    exact h1

theorem detectSpeaker_out (k : ℕ) (d : SpeakerDetector) (f : AudioFeatures)
    (hk : 1 ≤ k) (hinv : DetInv k d) :
    ((detectSpeaker d f).isNew = true →
      (detectSpeaker d f).speakerId = (d.speakerCount : ℤ) ∧ d.speakerCount < k) ∧
    ((detectSpeaker d f).isNew = false → 0 ≤ (detectSpeaker d f).speakerId →
      (detectSpeaker d f).speakerId < (d.speakerCount : ℤ)) := by
  obtain ⟨hmax, hkeys, hcount, hcur⟩ := hinv
  by_cases hrej : f.pitch < 60 ∨ f.pitch > 400
  · rw [detectSpeaker_reject d f hrej]
    refine ⟨fun h => by simp at h, fun _ h0 => ?_⟩
    cases hc : d.currentSpeakerId with
    | none =>
      rw [hc] at h0
      exact absurd h0 (by decide)
    | some i =>
      rw [hc] at h0
      exact (hcur i hc).2
  · simp only [detectSpeaker, if_neg hrej]
    by_cases h1 : (scanProfiles f d.profiles).2 < SPEAKER_CHANGE_THRESHOLD ∧
        d.speakerCount < d.maxSpeakers
    · rw [if_pos h1]
      refine ⟨fun _ => ⟨rfl, ?_⟩, fun h => by simp at h⟩
      rw [← hmax]
      exact h1.2
    · rw [if_neg h1]
      by_cases h2 : (scanProfiles f d.profiles).2 < SPEAKER_CHANGE_THRESHOLD
      · rw [if_pos h2]
        refine ⟨fun h => by simp at h, fun _ _ => ?_⟩
        have hge : d.maxSpeakers ≤ d.speakerCount := by
          by_contra hlt
          exact h1 ⟨h2, Nat.lt_of_not_le hlt⟩
        have hpos : 1 ≤ d.speakerCount := by
          rw [hmax] at hge
          omega
        by_cases h3 : (scanProfiles f d.profiles).1 = -1
        · simp only [h3]
          simpa using Int.natCast_pos.mpr hpos
        · simp only [if_neg h3]
          have hm := scanProfiles_mem f d.profiles (Or.inl h3)
          rw [hkeys] at hm
          simp only [List.mem_map, List.mem_range] at hm
          obtain ⟨j, hjlt, hje⟩ := hm
          rw [← hje]
          exact_mod_cast hjlt
      · rw [if_neg h2]
        refine ⟨fun h => by simp at h, fun _ _ => ?_⟩
        have hpos : 0 < (scanProfiles f d.profiles).2 := by
          have := not_lt.mp h2
          have hth : (0 : ℚ) < SPEAKER_CHANGE_THRESHOLD := by
            norm_num [SPEAKER_CHANGE_THRESHOLD]
          exact lt_of_lt_of_le hth this
        have hm := scanProfiles_mem f d.profiles (Or.inr hpos)
        rw [hkeys] at hm
        simp only [List.mem_map, List.mem_range] at hm
        obtain ⟨j, hjlt, hje⟩ := hm
        rw [← hje]
        show ((j : ℤ)) < (d.speakerCount : ℤ)
        exact_mod_cast hjlt

/-- C8: `calculateSpectralCentroid` returns 0 whenever the total magnitude
sum is 0 (in particular for the all-zero spectrum, avoiding the division),
and for positive total magnitude returns the magnitude-weighted average
frequency `Σ mag_i · freq_i / Σ mag_i` with `freq_i = i · sampleRate /
fftSize`. -/
theorem calculateSpectralCentroid_spec (frequencyData : List ℚ)
    (sampleRate fftSize : ℚ) :
    (frequencyData.sum = 0 →
      calculateSpectralCentroid frequencyData sampleRate fftSize = 0) ∧
    (0 < frequencyData.sum →
      calculateSpectralCentroid frequencyData sampleRate fftSize =
        (∑ i ∈ Finset.range frequencyData.length,
            frequencyData.getD i 0 * ((i : ℚ) * (sampleRate / fftSize))) /
          frequencyData.sum) := by
  have h := centroid_foldl_enumFrom (sampleRate / fftSize) frequencyData 0 (0, 0)
  constructor
  · intro h0
    simp only [calculateSpectralCentroid, List.enum, h]
    simp [h0]
  · intro h0
    simp only [calculateSpectralCentroid, List.enum, h]
    simp [h0]

/-- Witness for C8: the all-zero spectrum [0,0] has centroid 0, and the
spectrum [2,6] (sum 8 > 0) gets the weighted-average formula. -/
theorem calculateSpectralCentroid_spec_witness :
    (([0, 0] : List ℚ).sum = 0 ∧ calculateSpectralCentroid [0, 0] 44100 2048 = 0) ∧
    (0 < ([2, 6] : List ℚ).sum ∧
      calculateSpectralCentroid [2, 6] 44100 2048 =
        (∑ i ∈ Finset.range ([2, 6] : List ℚ).length,
            ([2, 6] : List ℚ).getD i 0 * ((i : ℚ) * ((44100 : ℚ) / 2048))) /
          ([2, 6] : List ℚ).sum) :=
  ⟨⟨by norm_num, (calculateSpectralCentroid_spec [0, 0] 44100 2048).1 (by norm_num)⟩,
   ⟨by norm_num, (calculateSpectralCentroid_spec [2, 6] 44100 2048).2 (by norm_num)⟩⟩

theorem detInv_step (k : ℕ) (hk : 1 ≤ k) (d : SpeakerDetector) (f : AudioFeatures)
    (hinv : DetInv k d) : DetInv k (processSpeakerDetection d f).detector := by
  obtain ⟨hmax, hkeys, hcount, hcur⟩ := hinv
  have hout := detectSpeaker_out k d f hk ⟨hmax, hkeys, hcount, hcur⟩
  have emax : (processSpeakerDetection d f).detector.maxSpeakers = d.maxSpeakers := rfl
  cases hnew : (detectSpeaker d f).isNew with
  | true =>
    obtain ⟨hid, hlt⟩ := hout.1 hnew
    have h0 : 0 ≤ (detectSpeaker d f).speakerId := by
      rw [hid]
      exact Int.natCast_nonneg _
    have hnotmem : ((d.speakerCount : ℤ)) ∉ d.profiles.map Prod.fst := by
      rw [hkeys]
      simp only [List.mem_map, List.mem_range]
      push_neg
      intro j hj
      omega
    have hnothas : ¬ mapHas d.profiles (detectSpeaker d f).speakerId = true := by
      rw [hid, mapHas_iff_mem_keys]
      exact hnotmem
    have eprof : (processSpeakerDetection d f).detector.profiles =
        mapSet d.profiles (detectSpeaker d f).speakerId
          (createProfile (detectSpeaker d f).speakerId f) := by
      simp only [processSpeakerDetection]
      simp [h0, hnew]
    have ecount : (processSpeakerDetection d f).detector.speakerCount =
        d.speakerCount + 1 := by
      simp only [processSpeakerDetection]
      simp [hnew]
    have ecur : (processSpeakerDetection d f).detector.currentSpeakerId =
        some (detectSpeaker d f).speakerId := by
      simp only [processSpeakerDetection]
      simp [h0]
    refine ⟨by rw [emax, hmax], ?_, ?_, ?_⟩
    · rw [eprof, ecount, mapSet_keys_of_not_has _ _ _ hnothas, hkeys, hid,
        List.range_succ, List.map_append]
      simp
    · rw [ecount]
      omega
    · intro i hi
      rw [ecur] at hi
      injection hi with hi
      rw [← hi, hid, ecount]
      constructor
      · exact Int.natCast_nonneg _
      · exact_mod_cast Nat.lt_succ_self _
  | false =>
    have hle := hout.2 hnew
    have ecount : (processSpeakerDetection d f).detector.speakerCount =
        d.speakerCount := by
      simp only [processSpeakerDetection]
      simp [hnew]
    by_cases h0 : 0 ≤ (detectSpeaker d f).speakerId
    · have hidlt := hle h0
      have ecur : (processSpeakerDetection d f).detector.currentSpeakerId =
          some (detectSpeaker d f).speakerId := by
        simp only [processSpeakerDetection]
        simp [h0]
      have ekeys : (processSpeakerDetection d f).detector.profiles.map Prod.fst =
          d.profiles.map Prod.fst := by
        simp only [processSpeakerDetection]
        cases hm : mapGet d.profiles (detectSpeaker d f).speakerId with
        | none => simp [h0, hnew, hm]
        | some p =>
          simp [h0, hnew, hm]
          exact mapSet_keys_of_has _ _ _ (mapHas_of_mapGet _ _ _ hm)
      refine ⟨by rw [emax, hmax], ?_, ?_, ?_⟩
      · rw [ekeys, ecount, hkeys]
      · rw [ecount]
        exact hcount
      · intro i hi
        rw [ecur] at hi
        injection hi with hi
        rw [← hi, ecount]
        exact ⟨h0, hidlt⟩
    · have ecur : (processSpeakerDetection d f).detector.currentSpeakerId =
          d.currentSpeakerId := by
        simp only [processSpeakerDetection]
        simp [h0]
      have eprof : (processSpeakerDetection d f).detector.profiles = d.profiles := by
        simp only [processSpeakerDetection]
        simp [h0]
      refine ⟨by rw [emax, hmax], ?_, ?_, ?_⟩
      · rw [eprof, ecount, hkeys]
      · rw [ecount]
        exact hcount
      · intro i hi
        rw [ecur] at hi
        rw [ecount]
        exact hcur i hi

theorem detInv_of_reachable (k : ℕ) (hk : 1 ≤ k) (d : SpeakerDetector)
    (h : DetectorReachable k d) : DetInv k d := by
  induction h with
  | init =>
    refine ⟨rfl, by simp [createSpeakerDetector], by simp [createSpeakerDetector], ?_⟩
    intro i hi
    simp [createSpeakerDetector] at hi
  | step d f hd ih => exact detInv_step k hk d f ih

/-- C2: from `createSpeakerDetector k` with k ≥ 1, along any sequence of
processed frames: at most k profiles exist at any time, speakerCount never
exceeds k, every nonnegative speakerId returned by a frame lies in 0..k-1,
and a newly created speaker's id equals the profile count at the moment of
creation (ids are assigned sequentially in creation order). -/
theorem detector_cap_invariants (k : ℕ) (hk : 1 ≤ k) (d : SpeakerDetector)
    (hreach : DetectorReachable k d) (f : AudioFeatures) :
    d.profiles.length ≤ k ∧
    d.speakerCount ≤ k ∧
    (0 ≤ (processSpeakerDetection d f).speakerId →
      (processSpeakerDetection d f).speakerId < (k : ℤ)) ∧
    ((processSpeakerDetection d f).isNewSpeaker = true →
      (processSpeakerDetection d f).speakerId = (d.profiles.length : ℤ)) := by
  obtain ⟨hmax, hkeys, hcount, hcur⟩ := detInv_of_reachable k hk d hreach
  have hlen : d.profiles.length = d.speakerCount := by
    have := congrArg List.length hkeys
    simpa using this
  have hid : (processSpeakerDetection d f).speakerId =
      (detectSpeaker d f).speakerId := rfl
  have hisnew : (processSpeakerDetection d f).isNewSpeaker =
      (detectSpeaker d f).isNew := rfl
  have hout := detectSpeaker_out k d f hk ⟨hmax, hkeys, hcount, hcur⟩
  refine ⟨by rw [hlen]; exact hcount, hcount, ?_, ?_⟩
  · intro h0
    rw [hid] at h0 ⊢
    cases hnew : (detectSpeaker d f).isNew with
    | true =>
      obtain ⟨hident, hlt⟩ := hout.1 hnew
      rw [hident]
      exact_mod_cast hlt
    | false =>
      have hidlt := hout.2 hnew h0
      have hcountk : ((d.speakerCount : ℤ)) ≤ (k : ℤ) := by exact_mod_cast hcount
      omega
  · intro hnew
    rw [hisnew] at hnew
    rw [hid, hlen]
    exact (hout.1 hnew).1

/-- Witness for C2 at k = 1, the freshly created detector, and a voiced
frame. -/
theorem detector_cap_invariants_witness :
    1 ≤ 1 ∧ DetectorReachable 1 (createSpeakerDetector 1) ∧
    ((createSpeakerDetector 1).profiles.length ≤ 1 ∧
      (createSpeakerDetector 1).speakerCount ≤ 1 ∧
      (0 ≤ (processSpeakerDetection (createSpeakerDetector 1) voicedFrame).speakerId →
        (processSpeakerDetection (createSpeakerDetector 1) voicedFrame).speakerId <
          ((1 : ℕ) : ℤ)) ∧
      ((processSpeakerDetection (createSpeakerDetector 1) voicedFrame).isNewSpeaker =
          true →
        (processSpeakerDetection (createSpeakerDetector 1) voicedFrame).speakerId =
          (((createSpeakerDetector 1).profiles.length : ℕ) : ℤ))) :=
  ⟨le_refl 1, DetectorReachable.init,
   detector_cap_invariants 1 (le_refl 1) (createSpeakerDetector 1)
     DetectorReachable.init voicedFrame⟩

/-- C7: `estimatePitch` returns either 0 or a value within
[sampleRate/maxPeriod, sampleRate/minPeriod], where minPeriod =
floor(sampleRate/500) and maxPeriod = floor(sampleRate/50), and a nonzero
pitch is reported only when some candidate lag in the searched range had
positive autocorrelation.  (When minPeriod = 0, i.e. sampleRate < 500, the
JS upper bound sampleRate/0 = Infinity is vacuous, stated here as the
guarded implication.) -/
theorem estimatePitch_bounds (dataArray : List ℚ) (sampleRate : ℚ)
    (hsr : 0 < sampleRate) :
    estimatePitch dataArray sampleRate = 0 ∨
      (sampleRate / (⌊sampleRate / 50⌋.toNat : ℚ) ≤ estimatePitch dataArray sampleRate ∧
        (0 < ⌊sampleRate / 500⌋.toNat →
          estimatePitch dataArray sampleRate ≤
            sampleRate / (⌊sampleRate / 500⌋.toNat : ℚ)) ∧
        ∃ period : ℕ,
          ⌊sampleRate / 500⌋.toNat ≤ period ∧
          period < min ⌊sampleRate / 50⌋.toNat dataArray.length ∧
          0 < autocorrAt dataArray period) := by
  have hunfold : estimatePitch dataArray sampleRate =
      (if (List.foldl (pitchStep dataArray) (0, 0)
            ((List.range (min ⌊sampleRate / 50⌋.toNat dataArray.length -
                ⌊sampleRate / 500⌋.toNat)).map (· + ⌊sampleRate / 500⌋.toNat))).2 > 0
       then sampleRate /
          (((List.foldl (pitchStep dataArray) (0, 0)
            ((List.range (min ⌊sampleRate / 50⌋.toNat dataArray.length -
                ⌊sampleRate / 500⌋.toNat)).map (· + ⌊sampleRate / 500⌋.toNat))).2 : ℚ))
       else 0) := rfl
  rcases pitchScan_inv dataArray
      ((List.range (min ⌊sampleRate / 50⌋.toNat dataArray.length -
          ⌊sampleRate / 500⌋.toNat)).map (· + ⌊sampleRate / 500⌋.toNat)) with
    h | ⟨hmem, hcorr, hpos⟩
  · left
    rw [hunfold, h]
    norm_num
  · set q := List.foldl (pitchStep dataArray) (0, 0)
        ((List.range (min ⌊sampleRate / 50⌋.toNat dataArray.length -
            ⌊sampleRate / 500⌋.toNat)).map (· + ⌊sampleRate / 500⌋.toNat)) with hqdef
    by_cases hq : 0 < q.2
    · right
      rw [hunfold, if_pos hq]
      obtain ⟨j, hj, hjq⟩ := List.mem_map.mp hmem
      have hjlt := List.mem_range.mp hj
      have hjq2 : j + ⌊sampleRate / 500⌋.toNat = q.2 := hjq
      have hminle : ⌊sampleRate / 500⌋.toNat ≤ q.2 := by omega
      have hltbound : q.2 < min ⌊sampleRate / 50⌋.toNat dataArray.length := by omega
      have hltmax : q.2 ≤ ⌊sampleRate / 50⌋.toNat := by omega
      refine ⟨?_, ?_, ⟨q.2, hminle, hltbound, ?_⟩⟩
      · have h2 : (0 : ℚ) < (q.2 : ℚ) := by exact_mod_cast hq
        have h3 : ((q.2 : ℚ)) ≤ ((⌊sampleRate / 50⌋.toNat : ℕ) : ℚ) := by
          exact_mod_cast hltmax
        exact div_le_div_of_nonneg_left hsr.le h2 h3
      · intro hmin
        have h2 : (0 : ℚ) < ((⌊sampleRate / 500⌋.toNat : ℕ) : ℚ) := by
          exact_mod_cast hmin
        have h3 : (((⌊sampleRate / 500⌋.toNat : ℕ) : ℚ)) ≤ (q.2 : ℚ) := by
          exact_mod_cast hminle
        exact div_le_div_of_nonneg_left hsr.le h2 h3
      · rw [hcorr] at hpos
        exact hpos
    · left
      rw [hunfold, if_neg hq]

/-- Witness for C7 at sampleRate 800 and the 8-sample buffer
[1, 0, -1, 0, 1, 0, -1, 0]. -/
theorem estimatePitch_bounds_witness :
    (0 : ℚ) < 800 ∧
    (estimatePitch [1, 0, -1, 0, 1, 0, -1, 0] 800 = 0 ∨
      ((800 : ℚ) / (⌊(800 : ℚ) / 50⌋.toNat : ℚ) ≤
          estimatePitch [1, 0, -1, 0, 1, 0, -1, 0] 800 ∧
        (0 < ⌊(800 : ℚ) / 500⌋.toNat →
          estimatePitch [1, 0, -1, 0, 1, 0, -1, 0] 800 ≤
            (800 : ℚ) / (⌊(800 : ℚ) / 500⌋.toNat : ℚ)) ∧
        ∃ period : ℕ,
          ⌊(800 : ℚ) / 500⌋.toNat ≤ period ∧
          period <
            min ⌊(800 : ℚ) / 50⌋.toNat ([(1 : ℚ), 0, -1, 0, 1, 0, -1, 0].length) ∧
          0 < autocorrAt [1, 0, -1, 0, 1, 0, -1, 0] period)) :=
  ⟨by norm_num,
   estimatePitch_bounds [1, 0, -1, 0, 1, 0, -1, 0] 800 (by norm_num)⟩

/-- C3: `detectVoiceActivity` returns voiced if and only if volume > 0.02,
or volume > silenceThreshold and (pitch strictly between 50 and 600 Hz or
spectral centroid > 100 Hz).  In particular a frame with volume > 0.02 is
voiced unconditionally, regardless of pitch, zero-crossing rate and spectral
centroid. -/
theorem detectVoiceActivity_iff (f : AudioFeatures) (silenceThreshold : ℚ) :
    detectVoiceActivity f silenceThreshold = true ↔
      (f.volume > 0.02 ∨
        (f.volume > silenceThreshold ∧
          ((50 < f.pitch ∧ f.pitch < 600) ∨ 100 < f.spectralCentroid))) := by
  by_cases h : f.volume > 0.02 <;>
    simp [detectVoiceActivity, h]

/-- C9: `resetDetector` ignores all previous state and returns the initial
empty detector of `createSpeakerDetector`: no profiles, speakerCount 0,
currentSpeakerId null.  Since the result does not depend on the prior state,
resetting twice in a row yields exactly the same empty state as resetting
once. -/
theorem resetDetector_initial (k : ℕ) :
    resetDetector k = createSpeakerDetector k ∧
    (resetDetector k).profiles = [] ∧
    (resetDetector k).speakerCount = 0 ∧
    (resetDetector k).currentSpeakerId = none :=
  ⟨rfl, rfl, rfl, rfl⟩

/-- C10: once a current speaker has been assigned, `processSpeakerDetection`
never clears `currentSpeakerId` back to null: the new value is either the
assigned (nonnegative) speakerId of this frame or the unchanged previous
one. -/
theorem processSpeakerDetection_preserves_current (d : SpeakerDetector)
    (f : AudioFeatures) (h : d.currentSpeakerId ≠ none) :
    (processSpeakerDetection d f).detector.currentSpeakerId ≠ none := by
  simp only [processSpeakerDetection]
  by_cases h0 : 0 ≤ (detectSpeaker d f).speakerId <;> simp [h0, h]

/-- Witness for C10 at a concrete state: the one-speaker detector has a
current speaker, and still has one after processing a pitchless frame. -/
theorem processSpeakerDetection_preserves_current_witness :
    oneSpeakerDetector.currentSpeakerId ≠ none ∧
    (processSpeakerDetection oneSpeakerDetector pitchlessFrame).detector.currentSpeakerId
      ≠ none :=
  ⟨by simp [oneSpeakerDetector],
   processSpeakerDetection_preserves_current oneSpeakerDetector pitchlessFrame
     (by simp [oneSpeakerDetector])⟩

/-- C1 counterexample: the claim fails on the code in two ways.  (1) With a
current speaker whose profile exists, a pitchless frame (pitch 0, outside
(60,400)) does mutate the profiles map: `processSpeakerDetection` folds the
frame into the current speaker's profile.  (2) A frame with pitch exactly
60 Hz lies outside the open interval (60,400), but the code's reject
condition is `pitch < 60 || pitch > 400`, so the frame is classified
normally and here returns confidence 1/2 ≠ 0. -/
theorem lowPitch_frame_effect_cex :
    (processSpeakerDetection oneSpeakerDetector pitchlessFrame).detector.profiles ≠
      oneSpeakerDetector.profiles ∧
    (processSpeakerDetection oneSpeakerDetector boundaryFrame).confidence ≠ 0 := by
  constructor
  · norm_num [processSpeakerDetection, detectSpeaker, scanProfiles, calculateSimilarity,
      updateProfile, mapGet, mapSet, mapHas, oneSpeakerDetector, pitchlessFrame,
      PROFILE_SAMPLES_THRESHOLD, SPEAKER_CHANGE_THRESHOLD]
  · norm_num [processSpeakerDetection, detectSpeaker, scanProfiles, profileStep,
      calculateSimilarity, oneSpeakerDetector, boundaryFrame, PROFILE_SAMPLES_THRESHOLD,
      SPEAKER_CHANGE_THRESHOLD]

/-- C1 (amended): for every state `s` and frame `f` with `f.pitch < 60` or
`f.pitch > 400` (the code's reject condition; pitch exactly 60 or 400 is NOT
rejected), `processSpeakerDetection` returns `speakerId =
s.currentSpeakerId` (or -1 if null), `isNewSpeaker = false`, `confidence =
0`, and leaves `speakerCount`, `currentSpeakerId` and the set of profile
keys unchanged — no profile is created or reassigned — but, unlike the
claim, the current speaker's profile (when it exists) IS updated with the
frame's features; only when there is no current speaker with a stored
profile is the profiles map completely unchanged. -/
theorem lowPitch_frame_effect (d : SpeakerDetector) (f : AudioFeatures)
    (h : f.pitch < 60 ∨ f.pitch > 400) :
    (processSpeakerDetection d f).speakerId = d.currentSpeakerId.getD (-1) ∧
    (processSpeakerDetection d f).isNewSpeaker = false ∧
    (processSpeakerDetection d f).confidence = 0 ∧
    (processSpeakerDetection d f).detector.speakerCount = d.speakerCount ∧
    (processSpeakerDetection d f).detector.currentSpeakerId = d.currentSpeakerId ∧
    (processSpeakerDetection d f).detector.profiles.map Prod.fst =
      d.profiles.map Prod.fst ∧
    (d.currentSpeakerId = none →
      (processSpeakerDetection d f).detector.profiles = d.profiles) ∧
    (∀ i, d.currentSpeakerId = some i → i < 0 →
      (processSpeakerDetection d f).detector.profiles = d.profiles) ∧
    (∀ i, d.currentSpeakerId = some i → 0 ≤ i → mapGet d.profiles i = none →
      (processSpeakerDetection d f).detector.profiles = d.profiles) ∧
    (∀ i p, d.currentSpeakerId = some i → 0 ≤ i → mapGet d.profiles i = some p →
      (processSpeakerDetection d f).detector.profiles =
        mapSet d.profiles i (updateProfile p f)) := by
  have hd := detectSpeaker_reject d f h
  cases hc : d.currentSpeakerId with
  | none =>
    simp [processSpeakerDetection, hd, hc]
  | some i =>
    by_cases hi : 0 ≤ i
    · cases hm : mapGet d.profiles i with
      | none =>
        simp only [processSpeakerDetection, hd, hc]
        simp [hi, hm]
        intro j q hij _ hget
        rw [hij] at hm
        rw [hm] at hget
        cases hget
      | some p =>
        have hkeys := mapSet_keys_of_has d.profiles i (updateProfile p f)
          (mapHas_of_mapGet d.profiles i p hm)
        simp only [processSpeakerDetection, hd, hc]
        simp [hi, hm, hkeys]
        intro j q hij _ hget
        rw [hij] at hm
        rw [hm] at hget
        cases hget
        rw [hij]
    · simp only [processSpeakerDetection, hd, hc]
      simp [hi]
      intro j q hij hj _
      rw [hij] at hi
      exact absurd hj hi

/-- Witness for C1 (amended) at the one-speaker detector and the pitchless
frame. -/
theorem lowPitch_frame_effect_witness :
    (pitchlessFrame.pitch < 60 ∨ pitchlessFrame.pitch > 400) ∧
    ((processSpeakerDetection oneSpeakerDetector pitchlessFrame).speakerId =
        oneSpeakerDetector.currentSpeakerId.getD (-1) ∧
      (processSpeakerDetection oneSpeakerDetector pitchlessFrame).isNewSpeaker = false ∧
      (processSpeakerDetection oneSpeakerDetector pitchlessFrame).confidence = 0 ∧
      (processSpeakerDetection oneSpeakerDetector pitchlessFrame).detector.speakerCount =
        oneSpeakerDetector.speakerCount ∧
      (processSpeakerDetection oneSpeakerDetector pitchlessFrame).detector.currentSpeakerId =
        oneSpeakerDetector.currentSpeakerId ∧
      (processSpeakerDetection oneSpeakerDetector pitchlessFrame).detector.profiles.map
          Prod.fst = oneSpeakerDetector.profiles.map Prod.fst ∧
      (oneSpeakerDetector.currentSpeakerId = none →
        (processSpeakerDetection oneSpeakerDetector pitchlessFrame).detector.profiles =
          oneSpeakerDetector.profiles) ∧
      (∀ i, oneSpeakerDetector.currentSpeakerId = some i → i < 0 →
        (processSpeakerDetection oneSpeakerDetector pitchlessFrame).detector.profiles =
          oneSpeakerDetector.profiles) ∧
      (∀ i, oneSpeakerDetector.currentSpeakerId = some i → 0 ≤ i →
        mapGet oneSpeakerDetector.profiles i = none →
        (processSpeakerDetection oneSpeakerDetector pitchlessFrame).detector.profiles =
          oneSpeakerDetector.profiles) ∧
      (∀ i p, oneSpeakerDetector.currentSpeakerId = some i → 0 ≤ i →
        mapGet oneSpeakerDetector.profiles i = some p →
        (processSpeakerDetection oneSpeakerDetector pitchlessFrame).detector.profiles =
          mapSet oneSpeakerDetector.profiles i (updateProfile p pitchlessFrame))) :=
  ⟨by norm_num [pitchlessFrame],
   lowPitch_frame_effect oneSpeakerDetector pitchlessFrame
     (by norm_num [pitchlessFrame])⟩

/-- C6 counterexample: a zero-length time-domain buffer does not fail with
an InvalidInput error — no such error mechanism exists in the code.
`calculateRMS` instead computes `sqrt(0/0) = NaN` (modelled as `none`), the
ill-defined value that the claim says feature extraction never returns. -/
theorem emptyBuffer_nan_cex : calculateRMS [] = none := by
  simp [calculateRMS]

/-- C6 (amended): a zero-length buffer is not rejected with an error; RMS
evaluates to NaN (`none`), every JS comparison on the NaN volume is false so
the frame is classified silent regardless of the other features, and a
silent frame never touches the speaker detector (no voice profile is
mutated).  However the silent-path roster bookkeeping still runs: at
`activeState`, a silent frame 100 ms after the interval start does mutate
the roster (it closes out speaker 0's interval), so the roster part of the
claim fails even on the silent path. -/
theorem emptyBuffer_no_error (pitch spectralCentroid threshR : ℝ) (k : ℕ)
    (st : SysState) (f : AudioFeatures) (now : ℤ)
    (hvad : detectVoiceActivity f DEFAULT_SILENCE_THRESHOLD = false) :
    calculateRMS [] = none ∧
    detectVoiceActivityFloat none pitch spectralCentroid threshR = false ∧
    (processAudioFrame k st f now).detector = st.detector ∧
    (processAudioFrame 2 activeState silentFrame 200).agg.speakers ≠
      activeState.agg.speakers := by
  refine ⟨by simp [calculateRMS], by simp [detectVoiceActivityFloat, jsGt], ?_, ?_⟩
  · simp only [processAudioFrame, hvad]
    rfl
  · norm_num [processAudioFrame, rosterSilent, detectVoiceActivity, silentFrame,
      activeState, DEFAULT_SILENCE_THRESHOLD, DEFAULT_MIN_SPEECH_DURATION,
      Speaker.mk.injEq]

/-- Witness for C6 (amended) at the silent frame and the post-`start`
state. -/
theorem emptyBuffer_no_error_witness :
    detectVoiceActivity silentFrame DEFAULT_SILENCE_THRESHOLD = false ∧
    (calculateRMS [] = none ∧
      detectVoiceActivityFloat none 0 0 0.008 = false ∧
      (processAudioFrame 2 startState silentFrame 0).detector = startState.detector ∧
      (processAudioFrame 2 activeState silentFrame 200).agg.speakers ≠
        activeState.agg.speakers) :=
  ⟨by norm_num [detectVoiceActivity, silentFrame, DEFAULT_SILENCE_THRESHOLD],
   emptyBuffer_no_error 0 0 0.008 2 startState silentFrame 0
     (by norm_num [detectVoiceActivity, silentFrame, DEFAULT_SILENCE_THRESHOLD])⟩

theorem roster_ids_map (l : List Speaker) (g : Speaker → Speaker)
    (h : ∀ s, (g s).id = s.id) :
    (l.map g).map Speaker.id = l.map Speaker.id := by
  rw [List.map_map]
  exact List.map_congr_left (fun s _ => h s)

theorem mem_range_castList (x : ℤ) (n : ℕ) :
    x ∈ (List.range n).map (fun j : ℕ => (j : ℤ)) ↔ 0 ≤ x ∧ x < (n : ℤ) := by
  rw [List.mem_map]
  constructor
  · rintro ⟨a, ha, rfl⟩
    rw [List.mem_range] at ha
    omega
  · rintro ⟨h0, hlt⟩
    refine ⟨x.toNat, ?_, ?_⟩
    · rw [List.mem_range]
      omega
    · omega

theorem roster_sorted_of_ids (l : List Speaker) (m : ℕ)
    (hids : l.map Speaker.id = (List.range m).map (fun n : ℕ => (n : ℤ))) :
    List.Sorted (fun a b : Speaker => a.id ≤ b.id) l := by
  have h1 : (l.map Speaker.id).Sorted (· ≤ ·) := by
    rw [hids]
    exact (List.pairwise_lt_range m).map _ (fun a b hab => by exact_mod_cast hab.le)
  rw [List.Sorted, List.pairwise_map] at h1
  exact h1

theorem roster_sorted_append (l : List Speaker) (m : ℕ) (x : Speaker)
    (hids : l.map Speaker.id = (List.range m).map (fun n : ℕ => (n : ℤ)))
    (hx : (m : ℤ) ≤ x.id) :
    List.Sorted (fun a b : Speaker => a.id ≤ b.id) (l ++ [x]) := by
  rw [List.Sorted, List.pairwise_append]
  refine ⟨roster_sorted_of_ids l m hids, List.pairwise_singleton _ _, ?_⟩
  intro a ha b hb
  rw [List.mem_singleton] at hb
  subst hb
  have hmem : a.id ∈ l.map Speaker.id := List.mem_map_of_mem _ ha
  rw [hids, mem_range_castList] at hmem
  omega

theorem addSpeaker_fresh (k : ℕ) (l : List Speaker) (m : ℕ)
    (hids : l.map Speaker.id = (List.range m).map (fun n : ℕ => (n : ℤ)))
    (hm : m < k) :
    (addSpeaker k l ((m : ℤ))).map Speaker.id =
      (List.range (m + 1)).map (fun n : ℕ => (n : ℤ)) := by
  have hguard : ¬ (((m : ℤ)) < 0 ∨ ((k : ℕ) : ℤ) ≤ ((m : ℤ))) := by
    push_neg
    constructor
    · exact Int.natCast_nonneg m
    · exact_mod_cast hm
  have hnotpresent : ¬ (l.any fun s => s.id == ((m : ℤ))) = true := by
    simp only [List.any_eq_true, beq_iff_eq]
    push_neg
    intro s hs
    have hmem : s.id ∈ l.map Speaker.id := List.mem_map_of_mem _ hs
    rw [hids, mem_range_castList] at hmem
    omega
  simp only [addSpeaker]
  rw [if_neg hguard, if_neg hnotpresent]
  have hsorted := roster_sorted_append l m
    { id := ((m : ℤ)), name := "Speaker " ++ toString (((m : ℤ)) + 1),
      color := SPEAKER_COLORS.getD ((m : ℤ)).toNat "", totalTime := 0,
      isActive := false, lastActiveTime := none }
    hids (le_refl _)
  rw [List.Sorted.insertionSort_eq hsorted, List.map_append, hids, List.range_succ,
    List.map_append]
  simp

theorem mark_countP (l : List Speaker) (t : ℤ) (tnow : ℤ) :
    (l.map fun s =>
        if s.id = t then { s with isActive := true, lastActiveTime := some tnow }
        else { s with isActive := false }).countP (fun s => s.isActive) =
      l.countP (fun s => s.id == t) := by
  induction l with
  | nil => rfl
  | cons x xs ih =>
    simp only [List.map_cons, List.countP_cons]
    by_cases hx : x.id = t
    · simp [hx, ih]
    · simp [hx, ih]

theorem mark_active_id (l : List Speaker) (t : ℤ) (tnow : ℤ) :
    ∀ s ∈ (l.map fun s =>
        if s.id = t then { s with isActive := true, lastActiveTime := some tnow }
        else { s with isActive := false }),
      s.isActive = true → s.id = t := by
  intro s hs hact
  rw [List.mem_map] at hs
  obtain ⟨x, hx, rfl⟩ := hs
  by_cases hxt : x.id = t
  · simp only [if_pos hxt]
    exact hxt
  · rw [if_neg hxt] at hact
    simp at hact

theorem countP_id_eq_count (l : List Speaker) (t : ℤ) :
    l.countP (fun s => s.id == t) = (l.map Speaker.id).count t := by
  induction l with
  | nil => rfl
  | cons x xs ih =>
    simp only [List.map_cons, List.countP_cons, List.count_cons, ih]

theorem count_range_castList (m n : ℕ) (h : m < n) :
    ((List.range n).map (fun j : ℕ => (j : ℤ))).count ((m : ℤ)) = 1 := by
  have hinj : Function.Injective (fun j : ℕ => (j : ℤ)) := Nat.cast_injective
  rw [List.count_map_of_injective _ _ hinj]
  exact List.count_eq_one_of_mem (List.nodup_range n) (List.mem_range.mpr h)

theorem rosterVoiced_speakers (kk : ℕ) (agg : AggState) (inew : Bool)
    (tid tnow : ℤ) :
    ∃ l : List Speaker,
      (rosterVoiced kk agg inew tid tnow).speakers =
        (l.map fun s =>
          if s.id = tid then { s with isActive := true, lastActiveTime := some tnow }
          else { s with isActive := false }) ∧
      l.map Speaker.id =
        (if inew ∧ ¬ (agg.speakers.any fun s => s.id == tid) = true then
            addSpeaker kk agg.speakers tid
          else agg.speakers).map Speaker.id := by
  simp only [rosterVoiced]
  cases hls : agg.lastSpeakerId with
  | none => exact ⟨_, rfl, rfl⟩
  | some lastId =>
    by_cases hne : lastId ≠ tid
    · refine ⟨_, rfl, ?_⟩
      show List.map Speaker.id (if lastId ≠ tid then _ else _) = _
      rw [if_pos hne]
      exact roster_ids_map _ _ (fun s => by by_cases h : s.id = lastId <;> simp [h])
    · refine ⟨_, rfl, ?_⟩
      show List.map Speaker.id (if lastId ≠ tid then _ else _) = _
      rw [if_neg hne]

theorem rosterSilent_inactive (agg : AggState) (tnow lastId : ℤ)
    (hls : agg.lastSpeakerId = some lastId)
    (hel : tnow - agg.lastSpeakingTime > DEFAULT_MIN_SPEECH_DURATION) :
    ∀ s ∈ (rosterSilent agg tnow).speakers, s.isActive = false := by
  simp only [rosterSilent, hls]
  rw [if_pos hel]
  intro s hs
  rw [List.mem_map] at hs
  obtain ⟨x, hx, rfl⟩ := hs
  by_cases h : x.id = lastId <;> simp [h]

theorem rosterSilent_unchanged_none (agg : AggState) (tnow : ℤ)
    (hls : agg.lastSpeakerId = none) :
    (rosterSilent agg tnow).speakers = agg.speakers := by
  simp only [rosterSilent, hls]

theorem rosterSilent_unchanged_short (agg : AggState) (tnow lastId : ℤ)
    (hls : agg.lastSpeakerId = some lastId)
    (hel : ¬ tnow - agg.lastSpeakingTime > DEFAULT_MIN_SPEECH_DURATION) :
    (rosterSilent agg tnow).speakers = agg.speakers := by
  simp only [rosterSilent, hls]
  rw [if_neg hel]

theorem rosterSilent_ids (agg : AggState) (tnow : ℤ) :
    (rosterSilent agg tnow).speakers.map Speaker.id = agg.speakers.map Speaker.id := by
  simp only [rosterSilent]
  cases hls : agg.lastSpeakerId with
  | none => rfl
  | some lastId =>
    by_cases hel : tnow - agg.lastSpeakingTime > DEFAULT_MIN_SPEECH_DURATION
    · show List.map Speaker.id
          (if tnow - agg.lastSpeakingTime > DEFAULT_MIN_SPEECH_DURATION then _ else _) = _
      rw [if_pos hel]
      exact roster_ids_map _ _ (fun s => by by_cases h : s.id = lastId <;> simp [h])
    · show List.map Speaker.id
          (if tnow - agg.lastSpeakingTime > DEFAULT_MIN_SPEECH_DURATION then _ else _) = _
      rw [if_neg hel]

theorem sysInv_step (k : ℕ) (hk : 1 ≤ k) (st : SysState) (f : AudioFeatures)
    (now : ℤ) (hinv : SysInv k st) : SysInv k (processAudioFrame k st f now) := by
  obtain ⟨hdet, hros⟩ := hinv
  obtain ⟨hmax, hkeys, hcount, hcur⟩ := hdet
  have hout := detectSpeaker_out k st.detector f hk ⟨hmax, hkeys, hcount, hcur⟩
  have hid : (processSpeakerDetection st.detector f).speakerId =
      (detectSpeaker st.detector f).speakerId := rfl
  have hisnew : (processSpeakerDetection st.detector f).isNewSpeaker =
      (detectSpeaker st.detector f).isNew := rfl
  by_cases hvad : detectVoiceActivity f DEFAULT_SILENCE_THRESHOLD = true
  · have hdet2 := detInv_step k hk st.detector f ⟨hmax, hkeys, hcount, hcur⟩
    by_cases hrange : 0 ≤ (processSpeakerDetection st.detector f).speakerId ∧
        (processSpeakerDetection st.detector f).speakerId < ((k : ℕ) : ℤ)
    · have hframe : processAudioFrame k st f now =
          { detector := (processSpeakerDetection st.detector f).detector
            agg := rosterVoiced k st.agg
                     (processSpeakerDetection st.detector f).isNewSpeaker
                     (processSpeakerDetection st.detector f).speakerId now } := by
        simp only [processAudioFrame, hvad, if_true]
        rw [if_pos hrange]
      rw [hframe]
      refine ⟨hdet2, ?_⟩
      obtain ⟨l, hspeak, hlids⟩ := rosterVoiced_speakers k st.agg
        (processSpeakerDetection st.detector f).isNewSpeaker
        (processSpeakerDetection st.detector f).speakerId now
      show (rosterVoiced k st.agg _ _ _).speakers.map Speaker.id = _
      rw [hspeak]
      rw [roster_ids_map _ _ (fun s => by
        by_cases h : s.id = (processSpeakerDetection st.detector f).speakerId <;>
          simp [h])]
      rw [hlids]
      cases hnew : (detectSpeaker st.detector f).isNew with
      | true =>
        obtain ⟨hidc, hltk⟩ := hout.1 hnew
        have htid : (processSpeakerDetection st.detector f).speakerId =
            ((st.detector.speakerCount : ℕ) : ℤ) := by rw [hid, hidc]
        have hcount2 : (processSpeakerDetection st.detector f).detector.speakerCount =
            st.detector.speakerCount + 1 := by
          simp only [processSpeakerDetection]
          simp [hnew]
        have hany : ¬ (st.agg.speakers.any fun s =>
            s.id == (processSpeakerDetection st.detector f).speakerId) = true := by
          simp only [List.any_eq_true, beq_iff_eq]
          push_neg
          intro s hs
          have hmem : s.id ∈ st.agg.speakers.map Speaker.id := List.mem_map_of_mem _ hs
          rw [hros, mem_range_castList] at hmem
          rw [htid]
          omega
        rw [if_pos ⟨by rw [hisnew, hnew], hany⟩, htid, hcount2]
        exact addSpeaker_fresh k st.agg.speakers st.detector.speakerCount hros hltk
      | false =>
        have hcount2 : (processSpeakerDetection st.detector f).detector.speakerCount =
            st.detector.speakerCount := by
          simp only [processSpeakerDetection]
          simp [hnew]
        rw [if_neg (by rw [hisnew, hnew]; simp), hcount2]
        exact hros
    · have hframe : processAudioFrame k st f now =
          { detector := (processSpeakerDetection st.detector f).detector
            agg := st.agg } := by
        simp only [processAudioFrame, hvad, if_true]
        rw [if_neg hrange]
      rw [hframe]
      refine ⟨hdet2, ?_⟩
      show st.agg.speakers.map Speaker.id = _
      cases hnew : (detectSpeaker st.detector f).isNew with
      | true =>
        exfalso
        obtain ⟨hidc, hltk⟩ := hout.1 hnew
        exact hrange ⟨by rw [hid, hidc]; exact Int.natCast_nonneg _,
          by rw [hid, hidc]; exact_mod_cast hltk⟩
      | false =>
        have hcount2 : (processSpeakerDetection st.detector f).detector.speakerCount =
            st.detector.speakerCount := by
          simp only [processSpeakerDetection]
          simp [hnew]
        rw [hcount2]
        exact hros
  · have hvad2 : detectVoiceActivity f DEFAULT_SILENCE_THRESHOLD = false := by
      rw [Bool.not_eq_true] at hvad
      exact hvad
    have hframe : processAudioFrame k st f now =
        { detector := st.detector, agg := rosterSilent st.agg now } := by
      simp only [processAudioFrame, hvad2]
      rfl
    rw [hframe]
    refine ⟨⟨hmax, hkeys, hcount, hcur⟩, ?_⟩
    show (rosterSilent st.agg now).speakers.map Speaker.id = _
    rw [rosterSilent_ids]
    exact hros

theorem sysInv_of_reachable (k : ℕ) (hk : 1 ≤ k) (st : SysState)
    (h : SysReachable k st) : SysInv k st := by
  induction h with
  | init t0 =>
    refine ⟨?_, by simp [createSpeakerDetector]⟩
    refine ⟨rfl, by simp [createSpeakerDetector], by simp [createSpeakerDetector], ?_⟩
    intro i hi
    simp [createSpeakerDetector] at hi
  | step st f now hst ih => exact sysInv_step k hk st f now ih

/-- C5 counterexample: the claim fails on the silent path.  In a session
(cap 2) started at time 0, a voiced frame at t = 100 creates speaker 0 and
marks it active; a silent frame at t = 120 arrives only 20 ms into the
interval, below `minSpeechDuration` = 50, so the roster is left untouched
and speaker 0 is still marked `isActive = true` on a silent frame. -/
theorem roster_active_flags_cex :
    detectVoiceActivity silentFrame DEFAULT_SILENCE_THRESHOLD = false ∧
    ∃ s ∈ (processAudioFrame 2 (processAudioFrame 2 startState voicedFrame 100)
        silentFrame 120).agg.speakers, s.isActive = true := by
  constructor
  · norm_num [detectVoiceActivity, silentFrame, DEFAULT_SILENCE_THRESHOLD]
  · norm_num [processAudioFrame, rosterVoiced, rosterSilent, addSpeaker, startState,
      voicedFrame, silentFrame, detectVoiceActivity, processSpeakerDetection,
      detectSpeaker, scanProfiles, profileStep, calculateSimilarity, createProfile,
      mapSet, mapGet, mapHas, createSpeakerDetector, DEFAULT_SILENCE_THRESHOLD,
      DEFAULT_MIN_SPEECH_DURATION, SPEAKER_CHANGE_THRESHOLD,
      PROFILE_SAMPLES_THRESHOLD, List.insertionSort, List.orderedInsert,
      SPEAKER_COLORS]
    decide

/-- C5 (amended): in any reachable session state with cap k ≥ 1, a
voice-active frame attributed to a speaker (id in 0..k-1) leaves exactly one
roster record active — the current speaker — and all others inactive.  On a
silent frame, the roster is fully deactivated only when a speaker was being
tracked and more than `minSpeechDuration` elapsed since their interval
began; a silent frame with no tracked speaker, or arriving within
`minSpeechDuration` of the interval start, leaves the roster unchanged — in
particular the previous speaker can remain marked active during silence,
contrary to the claim. -/
theorem roster_active_flags (k : ℕ) (hk : 1 ≤ k) (st : SysState)
    (hreach : SysReachable k st) (f : AudioFeatures) (now : ℤ) :
    (detectVoiceActivity f DEFAULT_SILENCE_THRESHOLD = true →
      0 ≤ (processSpeakerDetection st.detector f).speakerId →
      (processSpeakerDetection st.detector f).speakerId < ((k : ℕ) : ℤ) →
      (processAudioFrame k st f now).agg.speakers.countP (fun s => s.isActive) = 1 ∧
      (∀ s ∈ (processAudioFrame k st f now).agg.speakers,
        s.isActive = true → s.id = (processSpeakerDetection st.detector f).speakerId)) ∧
    (detectVoiceActivity f DEFAULT_SILENCE_THRESHOLD = false →
      (∀ lastId, st.agg.lastSpeakerId = some lastId →
        now - st.agg.lastSpeakingTime > DEFAULT_MIN_SPEECH_DURATION →
        ∀ s ∈ (processAudioFrame k st f now).agg.speakers, s.isActive = false) ∧
      (st.agg.lastSpeakerId = none →
        (processAudioFrame k st f now).agg.speakers = st.agg.speakers) ∧
      (∀ lastId, st.agg.lastSpeakerId = some lastId →
        ¬ now - st.agg.lastSpeakingTime > DEFAULT_MIN_SPEECH_DURATION →
        (processAudioFrame k st f now).agg.speakers = st.agg.speakers)) := by
  obtain ⟨⟨hmax, hkeys, hcount, hcur⟩, hros⟩ := sysInv_of_reachable k hk st hreach
  have hout := detectSpeaker_out k st.detector f hk ⟨hmax, hkeys, hcount, hcur⟩
  have hid : (processSpeakerDetection st.detector f).speakerId =
      (detectSpeaker st.detector f).speakerId := rfl
  have hisnew : (processSpeakerDetection st.detector f).isNewSpeaker =
      (detectSpeaker st.detector f).isNew := rfl
  constructor
  · intro hvad h0 hk2
    have hframe : processAudioFrame k st f now =
        { detector := (processSpeakerDetection st.detector f).detector
          agg := rosterVoiced k st.agg
                   (processSpeakerDetection st.detector f).isNewSpeaker
                   (processSpeakerDetection st.detector f).speakerId now } := by
      simp only [processAudioFrame, hvad, if_true]
      rw [if_pos ⟨h0, hk2⟩]
    rw [hframe]
    obtain ⟨l, hspeak, hlids⟩ := rosterVoiced_speakers k st.agg
      (processSpeakerDetection st.detector f).isNewSpeaker
      (processSpeakerDetection st.detector f).speakerId now
    constructor
    · show (rosterVoiced k st.agg _ _ _).speakers.countP (fun s => s.isActive) = 1
      rw [hspeak, mark_countP, countP_id_eq_count, hlids]
      cases hnew : (detectSpeaker st.detector f).isNew with
      | true =>
        obtain ⟨hidc, hltk⟩ := hout.1 hnew
        have htid : (processSpeakerDetection st.detector f).speakerId =
            ((st.detector.speakerCount : ℕ) : ℤ) := by rw [hid, hidc]
        have hany : ¬ (st.agg.speakers.any fun s =>
            s.id == (processSpeakerDetection st.detector f).speakerId) = true := by
          simp only [List.any_eq_true, beq_iff_eq]
          push_neg
          intro s hs
          have hmem : s.id ∈ st.agg.speakers.map Speaker.id := List.mem_map_of_mem _ hs
          rw [hros, mem_range_castList] at hmem
          rw [htid]
          omega
        rw [if_pos ⟨by rw [hisnew, hnew], hany⟩, htid]
        rw [addSpeaker_fresh k st.agg.speakers st.detector.speakerCount hros hltk]
        exact count_range_castList st.detector.speakerCount
          (st.detector.speakerCount + 1) (Nat.lt_succ_self _)
      | false =>
        have hlt := hout.2 hnew (hid ▸ h0)
        rw [if_neg (by rw [hisnew, hnew]; simp), hros]
        have htid : (processSpeakerDetection st.detector f).speakerId =
            (((processSpeakerDetection st.detector f).speakerId.toNat : ℕ) : ℤ) := by
          omega
        rw [htid]
        refine count_range_castList _ _ ?_
        rw [hid] at htid ⊢
        omega
    · intro s hs hact
      rw [hspeak] at hs
      exact mark_active_id l _ now s hs hact
  · intro hvad
    have hframe : processAudioFrame k st f now =
        { detector := st.detector, agg := rosterSilent st.agg now } := by
      simp only [processAudioFrame, hvad]
      rfl
    rw [hframe]
    refine ⟨?_, ?_, ?_⟩
    · intro lastId hls hel
      exact rosterSilent_inactive st.agg now lastId hls hel
    · intro hls
      exact rosterSilent_unchanged_none st.agg now hls
    · intro lastId hls hel
      exact rosterSilent_unchanged_short st.agg now lastId hls hel

/-- Witness for C5 (amended) at k = 2, the post-`start` state (reachable by
construction) and a voiced frame at t = 100. -/
theorem roster_active_flags_witness :
    1 ≤ 2 ∧ SysReachable 2 startState ∧
    ((detectVoiceActivity voicedFrame DEFAULT_SILENCE_THRESHOLD = true →
      0 ≤ (processSpeakerDetection startState.detector voicedFrame).speakerId →
      (processSpeakerDetection startState.detector voicedFrame).speakerId <
        ((2 : ℕ) : ℤ) →
      (processAudioFrame 2 startState voicedFrame 100).agg.speakers.countP
        (fun s => s.isActive) = 1 ∧
      (∀ s ∈ (processAudioFrame 2 startState voicedFrame 100).agg.speakers,
        s.isActive = true →
          s.id = (processSpeakerDetection startState.detector voicedFrame).speakerId)) ∧
    (detectVoiceActivity voicedFrame DEFAULT_SILENCE_THRESHOLD = false →
      (∀ lastId, startState.agg.lastSpeakerId = some lastId →
        100 - startState.agg.lastSpeakingTime > DEFAULT_MIN_SPEECH_DURATION →
        ∀ s ∈ (processAudioFrame 2 startState voicedFrame 100).agg.speakers,
          s.isActive = false) ∧
      (startState.agg.lastSpeakerId = none →
        (processAudioFrame 2 startState voicedFrame 100).agg.speakers =
          startState.agg.speakers) ∧
      (∀ lastId, startState.agg.lastSpeakerId = some lastId →
        ¬ 100 - startState.agg.lastSpeakingTime > DEFAULT_MIN_SPEECH_DURATION →
        (processAudioFrame 2 startState voicedFrame 100).agg.speakers =
          startState.agg.speakers))) :=
  ⟨by norm_num, SysReachable.init 0,
   roster_active_flags 2 (by norm_num) startState (SysReachable.init 0) voicedFrame 100⟩

/-! ### Mel-band lemmas (C4) -/

theorem one_le_foldr_max (l : List ℝ) : 1 ≤ l.foldr max 1 := by
  induction l with
  | nil => exact le_refl 1
  | cons x xs ih => exact le_trans ih (le_max_right x _)

theorem foldr_max_le (l : List ℝ) (x : ℝ) (hx : x ∈ l) : x ≤ l.foldr max 1 := by
  induction l with
  | nil => cases hx
  | cons y ys ih =>
    rcases List.mem_cons.mp hx with h | h
    · subst h
      exact le_max_left x _
    · exact le_trans (ih h) (le_max_right y _)

theorem foldr_max_mem (l : List ℝ) : l.foldr max 1 = 1 ∨ l.foldr max 1 ∈ l := by
  induction l with
  | nil => exact Or.inl rfl
  | cons x xs ih =>
    rcases max_choice x (xs.foldr max 1) with h | h
    · right
      rw [List.foldr_cons, h]
      exact List.mem_cons_self _ _
    · rcases ih with h1 | h1
      · left
        rw [List.foldr_cons, h, h1]
      · right
        rw [List.foldr_cons, h]
        exact List.mem_cons_of_mem _ h1

theorem getD_zero_of_all_zero (l : List ℝ) (h : ∀ x ∈ l, x = 0) (i : ℕ) :
    l.getD i 0 = 0 := by
  induction l generalizing i with
  | nil => rfl
  | cons x xs ih =>
    cases i with
    | zero => exact h x (List.mem_cons_self _ _)
    | succ j => exact ih (fun y hy => h y (List.mem_cons_of_mem _ hy)) j

theorem jsIndex_zero_of_all_zero (l : List ℝ) (h : ∀ x ∈ l, x = 0) (i : ℤ) :
    jsIndex l i = 0 := by
  unfold jsIndex
  by_cases h0 : 0 ≤ i
  · rw [if_pos h0]
    exact getD_zero_of_all_zero l h i.toNat
  · rw [if_neg h0]

theorem foldl_const_acc (bins : List ℤ) (a : ℝ) :
    bins.foldl (fun e (_ : ℤ) => e) a = a := by
  induction bins generalizing a with
  | nil => rfl
  | cons b bs ih => exact ih a

theorem melBandRawEnergies_all_zero (freq : List ℝ) (sr : ℝ) (n : ℕ)
    (h : ∀ x ∈ freq, x = 0) :
    melBandRawEnergies freq sr n = List.replicate n 0 := by
  simp only [melBandRawEnergies]
  rw [List.eq_replicate_iff]
  refine ⟨by simp, ?_⟩
  intro x hx
  rw [List.mem_map] at hx
  obtain ⟨band, -, rfl⟩ := hx
  simp only [jsIndex_zero_of_all_zero freq h, zero_mul, add_zero]
  exact foldl_const_acc _ 0

theorem replicate_foldr_max (n : ℕ) : (List.replicate n (0 : ℝ)).foldr max 1 = 1 := by
  induction n with
  | zero => rfl
  | succ m ih =>
    rw [List.replicate_succ, List.foldr_cons, ih]
    norm_num

/-- C4 (amended): `calculateMelBandEnergies` divides each raw triangular-band
energy by `Math.max(...bands, 1)` — the maximum of the band energies AND 1,
not the maximum band energy alone.  Consequently: an all-zero spectrum
yields all-zero bands (no NaN); every output is at most 1; and the output
contains the value 1 (i.e. the post-normalization maximum is exactly 1) if
and only if some raw band energy is at least 1 — not for every non-all-zero
spectrum, as the counterexample shows. -/
theorem melBands_normalization (freq : List ℝ) (sr : ℝ) (n : ℕ) :
    ((∀ x ∈ freq, x = 0) →
      calculateMelBandEnergies freq sr n = List.replicate n 0) ∧
    (∀ y ∈ calculateMelBandEnergies freq sr n, y ≤ 1) ∧
    ((1 : ℝ) ∈ calculateMelBandEnergies freq sr n ↔
      ∃ b ∈ melBandRawEnergies freq sr n, 1 ≤ b) := by
  have hM1 : 1 ≤ (melBandRawEnergies freq sr n).foldr max 1 :=
    one_le_foldr_max _
  have hM0 : 0 < (melBandRawEnergies freq sr n).foldr max 1 := by linarith
  refine ⟨?_, ?_, ?_, ?_⟩
  · intro h
    simp only [calculateMelBandEnergies, melBandRawEnergies_all_zero freq sr n h,
      replicate_foldr_max]
    rw [List.eq_replicate_iff]
    refine ⟨by simp, ?_⟩
    intro x hx
    rw [List.mem_map] at hx
    obtain ⟨b, hb, rfl⟩ := hx
    rw [List.eq_of_mem_replicate hb]
    norm_num
  · intro y hy
    simp only [calculateMelBandEnergies, List.mem_map] at hy
    obtain ⟨e, he, rfl⟩ := hy
    rw [div_le_one hM0]
    exact foldr_max_le _ e he
  · intro h1
    simp only [calculateMelBandEnergies, List.mem_map] at h1
    obtain ⟨e, he, heq⟩ := h1
    refine ⟨e, he, ?_⟩
    have : e = (melBandRawEnergies freq sr n).foldr max 1 := by
      field_simp at heq
      linarith [heq]
    linarith
  · rintro ⟨b, hb, h1b⟩
    simp only [calculateMelBandEnergies, List.mem_map]
    rcases foldr_max_mem (melBandRawEnergies freq sr n) with hM | hM
    · refine ⟨b, hb, ?_⟩
      have hble := foldr_max_le _ b hb
      rw [hM] at hble ⊢
      have : b = 1 := le_antisymm hble h1b
      rw [this]
      norm_num
    · refine ⟨_, hM, ?_⟩
      field_simp

theorem melToFreq_freqToMel (x : ℝ) (hx : 0 < 1 + x / 700) :
    melToFreq (freqToMel x) = x := by
  unfold melToFreq freqToMel
  have h1 : 2595 * Real.logb 10 (1 + x / 700) / 2595 = Real.logb 10 (1 + x / 700) := by
    ring
  rw [h1, Real.rpow_logb (by norm_num) (by norm_num) hx]
  ring

theorem melToFreq_mono {m1 m2 : ℝ} (h : m1 ≤ m2) : melToFreq m1 ≤ melToFreq m2 := by
  unfold melToFreq
  have h1 : (10 : ℝ) ^ (m1 / 2595) ≤ (10 : ℝ) ^ (m2 / 2595) := by
    rw [Real.rpow_le_rpow_left_iff (by norm_num : (1:ℝ) < 10)]
    linarith
  linarith

theorem melToFreq_strictMono {m1 m2 : ℝ} (h : m1 < m2) :
    melToFreq m1 < melToFreq m2 := by
  unfold melToFreq
  have h1 : (10 : ℝ) ^ (m1 / 2595) < (10 : ℝ) ^ (m2 / 2595) := by
    rw [Real.rpow_lt_rpow_left_iff (by norm_num : (1:ℝ) < 10)]
    linarith
  linarith

theorem melToFreq_zero_eq : melToFreq 0 = 0 := by
  unfold melToFreq
  rw [zero_div, Real.rpow_zero]
  ring

theorem melToFreq_nonneg {m : ℝ} (h : 0 ≤ m) : 0 ≤ melToFreq m := by
  have := melToFreq_mono h
  rwa [melToFreq_zero_eq] at this

theorem freqToMel_lt {x y : ℝ} (hx : 0 < 1 + x / 700) (h : x < y) :
    freqToMel x < freqToMel y := by
  unfold freqToMel
  have := Real.logb_lt_logb (b := 10) (by norm_num) hx
    (by linarith : 1 + x / 700 < 1 + y / 700)
  linarith

theorem freqToMel_20_nonneg : 0 ≤ freqToMel 20 := by
  unfold freqToMel
  have := Real.logb_nonneg (b := 10) (by norm_num)
    (by norm_num : (1 : ℝ) ≤ 1 + 20 / 700)
  linarith

theorem melArg_nonneg (sr : ℝ) (hsr : 40 < sr) (n : ℕ) (c : ℝ) (hc0 : 0 ≤ c) :
    0 ≤ melToFreq (freqToMel 20 +
      c * ((freqToMel (sr / 2) - freqToMel 20) / ((n : ℝ) + 1))) := by
  have hmm : freqToMel 20 < freqToMel (sr / 2) :=
    freqToMel_lt (by norm_num) (by linarith)
  have hstep : 0 ≤ (freqToMel (sr / 2) - freqToMel 20) / ((n : ℝ) + 1) := by
    apply div_nonneg (by linarith)
    positivity
  apply melToFreq_nonneg
  have := freqToMel_20_nonneg
  nlinarith [mul_nonneg hc0 hstep]

theorem melArg_lt (sr : ℝ) (hsr : 40 < sr) (n : ℕ) (c : ℝ)
    (hcn : c < (n : ℝ) + 1) :
    melToFreq (freqToMel 20 +
      c * ((freqToMel (sr / 2) - freqToMel 20) / ((n : ℝ) + 1))) < sr / 2 := by
  have hmm : freqToMel 20 < freqToMel (sr / 2) :=
    freqToMel_lt (by norm_num) (by linarith)
  have hne : ((n : ℝ) + 1) ≠ 0 := by positivity
  have harg : freqToMel 20 +
      c * ((freqToMel (sr / 2) - freqToMel 20) / ((n : ℝ) + 1)) < freqToMel (sr / 2) := by
    have hstep : 0 < (freqToMel (sr / 2) - freqToMel 20) / ((n : ℝ) + 1) := by
      apply div_pos (by linarith)
      positivity
    have hkey : c * ((freqToMel (sr / 2) - freqToMel 20) / ((n : ℝ) + 1)) <
        ((n : ℝ) + 1) * ((freqToMel (sr / 2) - freqToMel 20) / ((n : ℝ) + 1)) :=
      mul_lt_mul_of_pos_right hcn hstep
    have hid : ((n : ℝ) + 1) * ((freqToMel (sr / 2) - freqToMel 20) / ((n : ℝ) + 1)) =
        freqToMel (sr / 2) - freqToMel 20 := by
      field_simp
    linarith
  have := melToFreq_strictMono harg
  rwa [melToFreq_freqToMel (sr / 2) (by nlinarith)] at this

theorem bandEnergy_eq_zero (data : List ℝ) (bS bC bE : ℤ)
    (hS : bS = 0) (hC : bC = 0) (hE : bE = 0) :
    ((List.range (bE + 1 - bS).toNat).map (fun j : ℕ => bS + (j : ℤ))).foldl
      (fun energy bin =>
        let weight : ℝ :=
          if bin < bC then ((bin : ℝ) - (bS : ℝ)) / ((bC : ℝ) - (bS : ℝ) + 1)
          else ((bE : ℝ) - (bin : ℝ)) / ((bE : ℝ) - (bC : ℝ) + 1)
        energy + jsIndex data bin * weight) 0 = 0 := by
  subst hS
  subst hC
  subst hE
  norm_num [List.range_succ, List.range_zero, List.foldl_cons, List.foldl_nil]

/-- On a one-bin spectrum every mel filter collapses: all three bin indices
floor to 0 and the single triangular weight is 0, so every raw band energy
is 0 whatever the bin's magnitude — the basis of the C4 counterexample. -/
theorem melBandRawEnergies_singleton (a sr : ℝ) (hsr : 40 < sr) (n : ℕ) :
    melBandRawEnergies [a] sr n = List.replicate n 0 := by
  have hsr0 : (0 : ℝ) < sr := by linarith
  have hpos2 : (0 : ℝ) < sr / 2 := by linarith
  have hbwe : sr / 2 / ((List.length ([a] : List ℝ)) : ℝ) = sr / 2 := by
    simp
  simp only [melBandRawEnergies]
  rw [List.eq_replicate_iff]
  refine ⟨by simp, ?_⟩
  intro x hx
  rw [List.mem_map] at hx
  obtain ⟨band, hband, rfl⟩ := hx
  rw [List.mem_range] at hband
  refine bandEnergy_eq_zero [a] _ _ _ ?_ ?_ ?_
  · rw [hbwe, Int.floor_eq_zero_iff]
    refine Set.mem_Ico.mpr ⟨?_, ?_⟩
    · exact div_nonneg
        (melArg_nonneg sr hsr n (band : ℝ) (Nat.cast_nonneg band)) hpos2.le
    · rw [div_lt_one hpos2]
      refine melArg_lt sr hsr n (band : ℝ) ?_
      have : (band : ℝ) < (n : ℝ) := by exact_mod_cast hband
      linarith
  · rw [hbwe, Int.floor_eq_zero_iff]
    refine Set.mem_Ico.mpr ⟨?_, ?_⟩
    · exact div_nonneg
        (melArg_nonneg sr hsr n ((band : ℝ) + 1) (by positivity)) hpos2.le
    · rw [div_lt_one hpos2]
      refine melArg_lt sr hsr n ((band : ℝ) + 1) ?_
      have : (band : ℝ) < (n : ℝ) := by exact_mod_cast hband
      linarith
  · rw [hbwe]
    have hlen : ((List.length ([a] : List ℝ) : ℕ) : ℤ) - 1 = 0 := by simp
    rw [hlen]
    refine min_eq_right ?_
    apply Int.floor_nonneg.mpr
    exact div_nonneg
      (melArg_nonneg sr hsr n ((band : ℝ) + 2) (by positivity)) hpos2.le

/-- C4 counterexample: the non-all-zero one-bin spectrum [5] at 44100 Hz
yields mel bands that are all 0 after normalization — the maximum is 0, not
1 — because the code divides by `Math.max(...bands, 1)` and here every raw
band energy is 0 (each collapsed triangular filter has weight 0). -/
theorem melBands_max_cex :
    (5 : ℝ) ≠ 0 ∧
    calculateMelBandEnergies [5] 44100 13 = List.replicate 13 0 ∧
    (1 : ℝ) ∉ calculateMelBandEnergies [5] 44100 13 := by
  have hraw := melBandRawEnergies_singleton 5 44100 (by norm_num) 13
  have heq : calculateMelBandEnergies [(5 : ℝ)] 44100 13 = List.replicate 13 0 := by
    simp only [calculateMelBandEnergies, hraw, replicate_foldr_max]
    rw [List.eq_replicate_iff]
    refine ⟨by simp, ?_⟩
    intro x hx
    rw [List.mem_map] at hx
    obtain ⟨b, hb, rfl⟩ := hx
    rw [List.eq_of_mem_replicate hb]
    norm_num
  refine ⟨by norm_num, heq, ?_⟩
  rw [heq]
  intro hmem
  have := List.eq_of_mem_replicate hmem
  norm_num at this

/-- Witness for C4 (amended) at the all-zero one-bin spectrum. -/
theorem melBands_normalization_witness :
    calculateMelBandEnergies [0] 44100 13 = List.replicate 13 0 ∧
    (∀ y ∈ calculateMelBandEnergies [0] 44100 13, y ≤ 1) ∧
    ((1 : ℝ) ∈ calculateMelBandEnergies [0] 44100 13 ↔
      ∃ b ∈ melBandRawEnergies [0] 44100 13, 1 ≤ b) :=
  ⟨(melBands_normalization [0] 44100 13).1 (by simp),
   (melBands_normalization [0] 44100 13).2.1,
   (melBands_normalization [0] 44100 13).2.2⟩

end SpeakerApp
